import Mathlib

/-!
Verification of the PatientJournals extraction-and-dataset engine.

Shallow embedding of the code in `src/tools.py`, `src/generate.py` and
`src/main.py`: dataset flushing, path identity resolution, fatal error
classification, the jsonl dataset reader, the continuation-format logic,
and the draining loop of the driver.  File contents are modelled as lists
of lines; exceptions as `Except String`; Python dicts whose values are
scalars as association lists `List (String × String)`.
-/

namespace PatientJournals

/-- A record (a flat Python dict with string values). -/
abbrev Rec := List (String × String)

/-- The two supported dataset formats (`_normalize_output_format` in
`src/tools.py` accepts exactly `"csv"` and `"jsonl"`). -/
inductive Fmt where
  | csv
  | jsonl
deriving DecidableEq, Repr

/-- Python `str.strip()` (no argument): whitespace removed from both
ends, modelled on the character list. -/
def pyStrip (s : List Char) : List Char :=
  ((s.dropWhile Char.isWhitespace).reverse.dropWhile Char.isWhitespace).reverse

/-- Python `str.lower()` on the character list. -/
def pyLower (s : List Char) : List Char :=
  s.map Char.toLower

/-- Python `str.lstrip(".")`: all leading dots removed. -/
def pyLstripDots (s : List Char) : List Char :=
  s.dropWhile (fun c => c = '.')

/-- `_normalize_output_format` from `src/tools.py`:
`fmt = output_format.strip().lower().lstrip(".")`, then membership in
`{"csv", "jsonl"}` is checked, raising `ValueError` otherwise. -/
def normFmtStr (s : String) : String :=
  String.mk (pyLstripDots (pyLower (pyStrip s.toList)))

/-- The validation half of `_normalize_output_format`. -/
def _normalize_output_format (output_format : String) : Except String Fmt :=
  let fmt := normFmtStr output_format
  if fmt = "csv" then Except.ok Fmt.csv
  else if fmt = "jsonl" then Except.ok Fmt.jsonl
  else Except.error ("Unsupported output_format: " ++ output_format)

/-- Column list of `pd.json_normalize(rows)`: the union of the rows' keys
in order of first appearance.  (Records here are already flat, so the
dot-joining of nested keys is the identity.) -/
def csvColumns (rows : List Rec) : List String :=
  ((rows.map (fun r => r.map Prod.fst)).flatten).eraseDups

/-- The header row written by `DataFrame.to_csv` with separator `$`
(the source's default `sep`). -/
def csvHeaderLine (rows : List Rec) : String :=
  String.intercalate "$" (csvColumns rows)

/-- One data row written by `DataFrame.to_csv` with separator `$`:
each column's value, missing keys rendered empty. -/
def csvLine (cols : List String) (r : Rec) : String :=
  String.intercalate "$" (cols.map (fun c => (r.lookup c).getD ""))

/-- Model of `DataFrame.to_csv(out_path, mode="a", header=h, sep="$")`:
appends (never rewrites) an optional header line and one line per row. -/
def to_csv_append (rows : List Rec) (content : List String) (header : Bool) :
    List String :=
  content ++ (if header then [csvHeaderLine rows] else []) ++
    rows.map (csvLine (csvColumns rows))

/-- Model of `json.dumps(row, ensure_ascii=False, default=str)` for a flat
record. -/
def json_dumps (r : Rec) : String :=
  "\x7b" ++
    String.intercalate ","
      (r.map (fun kv => "\"" ++ kv.1 ++ "\":\"" ++ kv.2 ++ "\"")) ++
  "\x7d"

/-- `flush_rows` from `src/tools.py`, after format validation, with the
output file's current contents made explicit (the source opens the file in
append mode `"a"` in both branches).  csv: one `to_csv` append with
`header=not header_written`, returning `True`.  jsonl: a loop writing one
`json.dumps` line per row, returning `header_written` unchanged. -/
def flush_rows (rows : List Rec) (content : List String)
    (header_written : Bool) (fmt : Fmt) : List String × Bool :=
  match fmt with
  | Fmt.csv => (to_csv_append rows content (!header_written), true)
  | Fmt.jsonl =>
      (rows.foldl (fun handle row => handle ++ [json_dumps row]) content,
       header_written)

/-! ### Path identity resolution (`src/tools.py`) -/

/-- A `pathlib.Path`: an absolute-or-relative flag plus the name
components (for an absolute path, the components after the `/` anchor). -/
structure PyPath where
  absolute : Bool
  comps : List String
deriving DecidableEq, Repr

/-- `Path.parts`: for an absolute path the anchor `"/"` is the first
part. -/
def pathParts (p : PyPath) : List String :=
  if p.absolute then "/" :: p.comps else p.comps

/-- `pathlib` joining `base / p`: an absolute right operand discards the
base entirely. -/
def pyJoin (base p : PyPath) : PyPath :=
  if p.absolute then p else ⟨base.absolute, base.comps ++ p.comps⟩

/-- `normalize_path` from `src/tools.py`
(`str(Path(path).expanduser().resolve())`): `resolve` anchors a relative
path at the current working directory `cwd` and returns an absolute
path (symlink and dot resolution are not exercised by the claims and are
modelled as the identity). -/
def normalize_path (cwd : List String) (p : PyPath) : PyPath :=
  if p.absolute then p else ⟨true, cwd ++ p.comps⟩

/-- `_candidate_path_ids` from `src/tools.py`: the identity set of a path;
the as-if-relative-to-root identity is added only for a relative path that
is not already prefixed by the root's parts. -/
def _candidate_path_ids (cwd : List String) (p : PyPath)
    (target_folder : Option PyPath) : Finset PyPath :=
  let ids : Finset PyPath := {normalize_path cwd p}
  match target_folder with
  | Option.none => ids
  | Option.some base =>
      if ¬ p.absolute then
        let rel_parts := pathParts base
        let p_parts := pathParts p
        if ¬ (rel_parts ≠ [] ∧ p_parts.take rel_parts.length = rel_parts) then
          ids ∪ {normalize_path cwd (pyJoin base p)}
        else ids
      else ids

/-- The spec's "p is already prefixed by root's path components",
read off the source's parts-based test. -/
def rootedBy (root p : PyPath) : Prop :=
  pathParts root ≠ [] ∧
    (pathParts p).take (pathParts root).length = pathParts root

instance (root p : PyPath) : Decidable (rootedBy root p) := by
  unfold rootedBy
  infer_instance

/-! ### Fatal error classification and the task wrapper (`src/generate.py`) -/

/-- The fixed marker tuple of `_is_fatal_api_error`. -/
def fatal_markers : List String :=
  ["token limit", "quota", "resource_exhausted", "rate limit",
   "permission", "unauthorized", "forbidden", "invalid api key",
   "invalid_api_key", "billing"]

/-- Python's `marker in text` substring containment on character lists:
some suffix of `text` starts with `pattern`. -/
def containsSub (text pattern : List Char) : Bool :=
  text.tails.any (fun t => pattern.isPrefixOf t)

/-- `_is_fatal_api_error` from `src/generate.py`: lower-case the error's
text (`str(exc).lower()`) and test each marker for substring
containment. -/
def _is_fatal_api_error (excText : String) : Bool :=
  let text := pyLower excText.toList
  fatal_markers.any (fun marker => containsSub text marker.toList)

/-- A `log(message, exc=e)` entry as produced by the logger of
`get_run_logger` in `src/tools.py` (timestamp omitted): the message,
followed by the exception detail when one is attached. -/
def logLine (message : String) (exc : Option String) : String :=
  match exc with
  | Option.none => message
  | Option.some e => message ++ "\n" ++ e

/-- Python dict assignment `row[k] = v` on an association list. -/
def dictSet (r : Rec) (k v : String) : Rec :=
  if r.any (fun kv => kv.1 = k) then
    r.map (fun kv => if kv.1 = k then (k, v) else kv)
  else r ++ [(k, v)]

/-- `data_to_row` from `src/tools.py`: the model dump plus the
`file_name` key. -/
def data_to_row (data : Rec) (file_name : String) : Rec :=
  dictSet data "file_name" file_name

/-- `process_file` from `src/generate.py`, with the outcome of
`generate_data` (a record, or the text of the raised exception) passed in
explicitly.  Returns the wrapper's own result — `Except.error` when the
exception is re-raised, `Except.ok Option.none` when it is swallowed —
paired with the log entries it wrote. -/
def process_file (file_name : String) (outcome : Except String Rec)
    (duration : String) : Except String (Option Rec) × List String :=
  match outcome with
  | Except.ok journal_data =>
      let row := data_to_row journal_data file_name
      let row := dictSet row "generation_seconds" duration
      (Except.ok (Option.some row), [])
  | Except.error e =>
      let logs := [logLine ("Error processing " ++ file_name) (Option.some e)]
      if _is_fatal_api_error e then (Except.error e, logs)
      else (Except.ok Option.none, logs)

/-! ### The jsonl dataset reader (`load_existing_dataset` in `src/tools.py`) -/

/-- A JSON value inside a parsed dict, collapsed to what the reader
inspects: a string, or anything else (numbers, null, arrays, nested
objects — none of which pass the `isinstance(name, str)` test). -/
inductive PyVal where
  | pyStr (s : String)
  | pyOther
deriving DecidableEq, Repr

/-- One physical line of a line-delimited dataset file, as seen after
`line.strip()` and the `json.loads` attempt: blank, malformed
(`json.JSONDecodeError`), a parsed dict, or a parsed non-dict value
(which fails the `isinstance(payload, dict)` test). -/
inductive JsonLine where
  | blank
  | malformed (raw : String)
  | parsedDict (fields : List (String × PyVal))
  | parsedOther
deriving DecidableEq, Repr

/-- One iteration of the jsonl branch of `load_existing_dataset`:
blank and malformed lines are skipped (`continue`); a parsed dict whose
`file_name` is a non-empty string contributes an identity; every parsed
payload increments the row count. -/
def load_jsonl_step (acc : Finset String × Nat) (line : JsonLine) :
    Finset String × Nat :=
  match line with
  | JsonLine.blank => acc
  | JsonLine.malformed _ => acc
  | JsonLine.parsedDict fields =>
      let names :=
        match fields.lookup "file_name" with
        | Option.some (PyVal.pyStr s) =>
            if s ≠ "" then insert s acc.1 else acc.1
        | _ => acc.1
      (names, acc.2 + 1)
  | JsonLine.parsedOther => (acc.1, acc.2 + 1)

/-- The jsonl branch of `load_existing_dataset` from `src/tools.py`:
the `(file_names, row_count)` pair produced by iterating over the file's
lines. -/
def load_existing_dataset_jsonl (lines : List JsonLine) : Finset String × Nat :=
  lines.foldl load_jsonl_step (∅, 0)

/-- The identity a single line contributes, if any: a parsed dict whose
`file_name` key holds a non-empty string. -/
def lineName (line : JsonLine) : Option String :=
  match line with
  | JsonLine.parsedDict fields =>
      match fields.lookup "file_name" with
      | Option.some (PyVal.pyStr s) => if s ≠ "" then Option.some s else Option.none
      | _ => Option.none
  | _ => Option.none

/-- Whether a line parses as JSON at all (contributes to `row_count`). -/
def lineParsed (line : JsonLine) : Bool :=
  match line with
  | JsonLine.parsedDict _ => true
  | JsonLine.parsedOther => true
  | _ => false

/-! ### Concurrency setup (`src/main.py` line 89 and 94) -/

/-- `asyncio.Semaphore.__init__` (CPython): raises `ValueError` exactly
when the initial value is negative; zero is accepted. -/
def semaphoreNew (value : Int) : Except String Unit :=
  if value < 0 then Except.error "Semaphore initial value must be >= 0"
  else Except.ok ()

/-- `src/main.py` lines 89–94: construct the semaphore from the configured
concurrency, then create one task per input file.  Returns the list of
files for which a task was created. -/
def dispatch_tasks (concurrent_tasks : Int) (data : List String) :
    Except String (List String) :=
  match semaphoreNew concurrent_tasks with
  | Except.error e => Except.error e
  | Except.ok _ => Except.ok data

/-! ### Continuation format override (`src/main.py` lines 55–66) -/

/-- The format decision of the continuation branch in `main`:
`existing_format` (already normalized by `load_existing_dataset`) always
replaces the configured `output_format`, and the override is logged
exactly when the normalized configured format differs. -/
def continuation_format (output_format : String) (existing_format : String) :
    String × Bool :=
  let logged := normFmtStr output_format ≠ existing_format
  (existing_format, logged)

/-! ### The draining loop of the driver (`src/main.py` lines 91–133) -/

/-- What `await coro` yields for one completed task: the record returned
by `process_file` (a dict), `None` after a swallowed non-fatal failure, or
a re-raised fatal exception. -/
inductive ExtractResult where
  | success (row : Rec)
  | nonFatal
  | fatal (msg : String)
deriving DecidableEq, Repr

/-- The driver state threaded through the draining loop: the in-memory
batch, the header flag, the written-row counter, the output file's lines,
the run log, the standalone error report, and the cancellation flag —
plus two observers, the sizes of the writer invocations (`flushSizes`)
and how many header lines were emitted (`headerEmits`). -/
structure DrainState where
  rows : List Rec
  headerWritten : Bool
  totalWritten : Nat
  fileContent : List String
  flushSizes : List Nat
  headerEmits : Nat
  logs : List String
  errorReport : Option String
  cancelled : Bool
deriving DecidableEq, Repr

/-- The fresh state of a run: empty batch, `header_written` and
`total_written` as primed by the (possible) continuation branch, and the
output file's seeded contents. -/
def initState (hw0 : Bool) (tw0 : Nat) (content0 : List String) : DrainState :=
  { rows := [], headerWritten := hw0, totalWritten := tw0,
    fileContent := content0, flushSizes := [], headerEmits := 0,
    logs := [], errorReport := Option.none, cancelled := false }

/-- One writer invocation as `main` performs it: `flush_rows` on the
current batch, then `total_written += len(rows)` and `rows.clear()`. -/
def flushStep (fmt : Fmt) (st : DrainState) : DrainState :=
  let fr := flush_rows st.rows st.fileContent st.headerWritten fmt
  { st with
      fileContent := fr.1,
      headerWritten := fr.2,
      totalWritten := st.totalWritten + st.rows.length,
      flushSizes := st.flushSizes ++ [st.rows.length],
      headerEmits := st.headerEmits +
        (if fmt = Fmt.csv ∧ st.headerWritten = false then 1 else 0),
      rows := [] }

/-- One iteration of the draining loop body for a non-raising completion
(`journal_row` is a dict or `None`): the truthiness test `if journal_row:`
appends a non-empty dict and logs otherwise; then the batch is flushed
when it has reached `flush_every`. -/
def drainStep (fmt : Fmt) (K : Nat) (st : DrainState) (journal_row : Option Rec) :
    DrainState :=
  let st1 :=
    match journal_row with
    | Option.some row =>
        if !row.isEmpty then { st with rows := st.rows ++ [row] }
        else
          { st with logs := st.logs ++
              [logLine "Received empty row from processing step." Option.none] }
    | Option.none =>
        { st with logs := st.logs ++
            [logLine "Received empty row from processing step." Option.none] }
  if K ≤ st1.rows.length then flushStep fmt st1 else st1

/-- The `for coro in as_completed(...)` loop: results in completion order;
a fatal completion raises out of `await coro`, ending the loop with the
exception (second component). -/
def drainLoop (fmt : Fmt) (K : Nat) :
    List ExtractResult → DrainState → DrainState × Option String
  | [], st => (st, Option.none)
  | ExtractResult.fatal msg :: _, st => (st, Option.some msg)
  | ExtractResult.success row :: rest, st =>
      drainLoop fmt K rest (drainStep fmt K st (Option.some row))
  | ExtractResult.nonFatal :: rest, st =>
      drainLoop fmt K rest (drainStep fmt K st Option.none)

/-- The outcome of `main`: the final state and the exception (if any)
propagating out of the driver to `asyncio.run`. -/
structure RunOutcome where
  state : DrainState
  raised : Option String
deriving DecidableEq, Repr

/-- `main`'s try/except/finally around the draining loop
(`src/main.py` lines 92–133): on an exception the `except` block cancels
the tasks, writes the standalone error report and logs — and does not
re-raise; the `finally` block flushes a non-empty remaining batch.  The
driver therefore never lets the exception escape (`raised` is `none`). -/
def runMain (fmt : Fmt) (K : Nat) (results : List ExtractResult)
    (st0 : DrainState) : RunOutcome :=
  let p := drainLoop fmt K results st0
  let st1 :=
    match p.2 with
    | Option.some msg =>
        { p.1 with
            cancelled := true,
            errorReport := Option.some msg,
            logs := p.1.logs ++ [logLine "Stopping early due to error." (Option.some msg)] }
    | Option.none => p.1
  let st2 :=
    if st1.rows.isEmpty then
      if st1.totalWritten = 0 then
        { st1 with logs := st1.logs ++
            [logLine "No rows written; output file may be missing." Option.none] }
      else st1
    else
      let n := st1.rows.length
      let st := flushStep fmt st1
      { st with logs := st.logs ++
          [logLine ("Wrote final batch of " ++ toString n ++ " rows.") Option.none] }
  { state := st2, raised := Option.none }

/-- A completion that is a truthy success (contributes a batch row). -/
def truthySucc (r : ExtractResult) : Bool :=
  match r with
  | ExtractResult.success row => !row.isEmpty
  | _ => false

/-- The number of truthy successful records among the completions. -/
def successCount (results : List ExtractResult) : Nat :=
  results.countP truthySucc

/-- Whether any completion re-raises fatally. -/
def hasFatal (results : List ExtractResult) : Bool :=
  results.any (fun r =>
    match r with
    | ExtractResult.fatal _ => true
    | _ => false)

/-! ### Helper lemmas -/

/-- Appending one `json.dumps` line at a time is appending the serialized
batch. -/
lemma foldl_json_append (rows : List Rec) :
    ∀ content : List String,
      rows.foldl (fun handle row => handle ++ [json_dumps row]) content
        = content ++ rows.map json_dumps := by
  induction rows with
  | nil => intro content; simp
  | cons row rest ih => intro content; simp [ih]

@[simp] lemma flushStep_rows (fmt : Fmt) (st : DrainState) :
    (flushStep fmt st).rows = [] := rfl

@[simp] lemma flushStep_flushSizes (fmt : Fmt) (st : DrainState) :
    (flushStep fmt st).flushSizes = st.flushSizes ++ [st.rows.length] := rfl

@[simp] lemma flushStep_totalWritten (fmt : Fmt) (st : DrainState) :
    (flushStep fmt st).totalWritten = st.totalWritten + st.rows.length := rfl

@[simp] lemma flushStep_logs (fmt : Fmt) (st : DrainState) :
    (flushStep fmt st).logs = st.logs := rfl

@[simp] lemma flushStep_headerEmits (fmt : Fmt) (st : DrainState) :
    (flushStep fmt st).headerEmits
      = st.headerEmits + (if fmt = Fmt.csv ∧ st.headerWritten = false then 1 else 0) := rfl

@[simp] lemma flushStep_errorReport (fmt : Fmt) (st : DrainState) :
    (flushStep fmt st).errorReport = st.errorReport := rfl

@[simp] lemma flushStep_cancelled (fmt : Fmt) (st : DrainState) :
    (flushStep fmt st).cancelled = st.cancelled := rfl

lemma flushStep_headerWritten (fmt : Fmt) (st : DrainState) :
    (flushStep fmt st).headerWritten
      = (match fmt with | Fmt.csv => true | Fmt.jsonl => st.headerWritten) := by
  cases fmt <;> rfl

/-! ### Claims -/

/-- **C2, counterexample.** A configured concurrency of `0` is *not*
rejected: the semaphore construction succeeds and a task is created for
the input file, contradicting "a concurrency limit C ≤ 0 is rejected as a
configuration error before any extraction task is dispatched". -/
theorem C2_counterexample :
    dispatch_tasks 0 ["a.png"] = Except.ok ["a.png"] := rfl

/-- **C2, amended.** Only a *negative* concurrency is rejected (by the
semaphore constructor, before any task is created); any `C ≥ 0` —
including `C = 0` — is accepted, and an extraction task is then created
for every input file. -/
theorem C2_dispatch_gate (c : Int) (data : List String) :
    dispatch_tasks c data =
      if c < 0 then Except.error "Semaphore initial value must be >= 0"
      else Except.ok data := by
  by_cases h : c < 0 <;> simp [dispatch_tasks, semaphoreNew, h]

/-- **C4.** `_is_fatal_api_error` holds iff the lower-cased error text
contains one of the fixed markers; on a failed extraction the wrapper
`process_file` always logs, returns no record without re-raising when the
classifier says non-fatal, and re-raises the same error when it says
fatal. -/
theorem C4_fatal_classifier (e fn dur : String) :
    (_is_fatal_api_error e = true ↔
      ∃ m ∈ fatal_markers, containsSub (pyLower e.toList) m.toList = true) ∧
    (_is_fatal_api_error e = false →
      process_file fn (Except.error e) dur
        = (Except.ok Option.none,
           [logLine ("Error processing " ++ fn) (Option.some e)])) ∧
    (_is_fatal_api_error e = true →
      process_file fn (Except.error e) dur
        = (Except.error e,
           [logLine ("Error processing " ++ fn) (Option.some e)])) := by
  refine ⟨?_, ?_, ?_⟩
  · simp [_is_fatal_api_error, List.any_eq_true]
  · intro h; simp [process_file, h]
  · intro h; simp [process_file, h]

/-- **C4, witness.** The classifier matches case-insensitively
("Quota" vs the marker "quota"), and the wrapper re-raises that error
after logging it. -/
theorem C4_witness :
    _is_fatal_api_error "Quota exceeded" = true ∧
    process_file "a.png" (Except.error "Quota exceeded") "1.0"
      = (Except.error "Quota exceeded",
         [logLine ("Error processing " ++ "a.png") (Option.some "Quota exceeded")]) :=
  ⟨by decide, (C4_fatal_classifier "Quota exceeded" "a.png" "1.0").2.2 (by decide)⟩

/-- **C6.** `flush_rows` in table format emits the header line iff
`header_written` was false and returns `true` unconditionally (also on an
empty batch); in line-delimited format it appends one serialized line per
record and passes `header_written` through unchanged. -/
theorem C6_flush_contract (rows : List Rec) (content : List String) (hw : Bool) :
    (flush_rows rows content hw Fmt.csv).2 = true ∧
    (flush_rows rows content hw Fmt.csv).1
      = content ++ (if hw then [] else [csvHeaderLine rows])
          ++ rows.map (csvLine (csvColumns rows)) ∧
    (flush_rows rows content hw Fmt.jsonl).1 = content ++ rows.map json_dumps ∧
    (flush_rows rows content hw Fmt.jsonl).2 = hw := by
  refine ⟨rfl, ?_, ?_, rfl⟩
  · cases hw <;> simp [flush_rows, to_csv_append]
  · simp [flush_rows, foldl_json_append]

/-- **C9.** `flush_rows` only appends: for every prior file content,
batch, header flag and format, the resulting file content extends the
prior content, whose bytes are left in place. -/
theorem C9_flush_append_only (rows : List Rec) (content : List String)
    (hw : Bool) (fmt : Fmt) :
    (∃ s, (flush_rows rows content hw fmt).1 = content ++ s) ∧
    (flush_rows rows content hw fmt).1.take content.length = content := by
  have h : ∃ s, (flush_rows rows content hw fmt).1 = content ++ s := by
    cases fmt
    · exact ⟨(if !hw then [csvHeaderLine rows] else [])
          ++ rows.map (csvLine (csvColumns rows)),
        by simp [flush_rows, to_csv_append]⟩
    · exact ⟨rows.map json_dumps, by simp [flush_rows, foldl_json_append]⟩
  refine ⟨h, ?_⟩
  obtain ⟨s, hs⟩ := h
  simp [hs]

/-- **C8.** On a continuation run whose configured output format differs
(after normalization) from the existing dataset's format, the existing
format is used and the override is logged; the chosen format is the
existing one in every case, so a continuation run never changes the
dataset's encoding. -/
theorem C8_continuation_override (cfg ex : String) :
    (continuation_format cfg ex).1 = ex ∧
    (normFmtStr cfg ≠ ex → continuation_format cfg ex = (ex, true)) := by
  refine ⟨rfl, ?_⟩
  intro h
  simp [continuation_format, h]

/-- **C8, witness.** A run configured for `" .CSV "` continuing a
`jsonl` dataset keeps `jsonl` and logs the override. -/
theorem C8_witness :
    normFmtStr " .CSV " ≠ "jsonl" ∧
    continuation_format " .CSV " "jsonl" = ("jsonl", true) :=
  ⟨by decide, (C8_continuation_override " .CSV " "jsonl").2 (by decide)⟩

/-- **C10.** The draining loop's success test is Python truthiness, not a
`None` check: a completed extraction returning an *empty* mapping is
handled identically to a non-fatal failure (`None`) — it is logged as an
empty row, contributes no batch row, and the rest of the run proceeds the
same way. -/
theorem C10_empty_row_truthiness (fmt : Fmt) (K : Nat) (st : DrainState)
    (rest : List ExtractResult) :
    drainStep fmt K st (Option.some []) = drainStep fmt K st Option.none ∧
    drainLoop fmt K (ExtractResult.success [] :: rest) st
      = drainLoop fmt K (ExtractResult.nonFatal :: rest) st ∧
    (drainStep fmt K st (Option.some [])).logs
      = st.logs ++ [logLine "Received empty row from processing step." Option.none] := by
  refine ⟨rfl, rfl, ?_⟩
  show (drainStep fmt K st Option.none).logs = _
  simp only [drainStep]
  split <;> simp

/-- **C3.** The identity set of a path against a root: exactly
`{normalize(p)}` when `p` is already prefixed by the root's path
components, and `{normalize(p)} ∪ {normalize(root/p)}` otherwise — for a
relative `p` both members are computed, and for an absolute
non-prefixed `p` the union still holds because `pathlib` joining an
absolute path onto the root yields the path itself, collapsing the
union to the singleton. -/
theorem C3_identity_ids (cwd : List String) (root p : PyPath) :
    _candidate_path_ids cwd p (Option.some root) =
      if rootedBy root p then {normalize_path cwd p}
      else {normalize_path cwd p} ∪ {normalize_path cwd (pyJoin root p)} := by
  simp only [_candidate_path_ids]
  by_cases hab : p.absolute = true
  · have hjoin : pyJoin root p = p := by simp [pyJoin, hab]
    rw [hjoin]
    simp only [hab, not_true_eq_false, if_false]
    split <;> simp
  · have hab' : p.absolute = false := by simpa using hab
    simp only [hab', Bool.false_eq_true, not_false_eq_true, if_true]
    unfold rootedBy
    by_cases hr : pathParts root ≠ [] ∧
        (pathParts p).take (pathParts root).length = pathParts root
    · rw [if_neg (not_not_intro hr), if_pos hr]
    · rw [if_pos hr, if_neg hr]

/-- **C7.** The jsonl reader of `load_existing_dataset`: the identity set
is exactly the set of `file_name` values of the well-formed record lines,
the row count is the number of lines that parse as JSON at all, and a
malformed line anywhere in the file is skipped without disturbing the
lines before or after it. -/
theorem C7_jsonl_reader_skips_malformed (lines xs ys : List JsonLine) (raw : String) :
    (load_existing_dataset_jsonl lines).1 = (lines.filterMap lineName).toFinset ∧
    (load_existing_dataset_jsonl lines).2 = lines.countP lineParsed ∧
    load_existing_dataset_jsonl (xs ++ JsonLine.malformed raw :: ys)
      = load_existing_dataset_jsonl (xs ++ ys) := by
  have key : ∀ (ls : List JsonLine) (S : Finset String) (n : Nat),
      ls.foldl load_jsonl_step (S, n)
        = (S ∪ (ls.filterMap lineName).toFinset, n + ls.countP lineParsed) := by
    intro ls
    induction ls with
    | nil => intro S n; simp [lineParsed]
    | cons l rest ih =>
        intro S n
        cases l with
        | blank => simp [load_jsonl_step, ih, lineName, lineParsed]
        | malformed r => simp [load_jsonl_step, ih, lineName, lineParsed]
        | parsedOther =>
            simp only [List.foldl_cons, load_jsonl_step, ih, List.filterMap_cons,
              lineName, List.countP_cons, lineParsed]
            simp
            omega
        | parsedDict fields =>
            simp only [List.foldl_cons, load_jsonl_step]
            rw [ih]
            simp only [List.filterMap_cons, lineName, List.countP_cons, lineParsed]
            match hfn : fields.lookup "file_name" with
            | Option.none =>
                simp only [hfn]
                simp
                omega
            | Option.some (PyVal.pyStr s) =>
                by_cases hs : s = ""
                · simp only [hfn, hs]
                  simp
                  omega
                · simp only [hfn]
                  simp [hs, Finset.union_insert]
                  omega
            | Option.some PyVal.pyOther =>
                simp only [hfn]
                simp
                omega
  refine ⟨?_, ?_, ?_⟩
  · have := key lines ∅ 0
    simp [load_existing_dataset_jsonl, this]
  · have := key lines ∅ 0
    simp [load_existing_dataset_jsonl, this]
  · have h1 := key (xs ++ JsonLine.malformed raw :: ys) ∅ 0
    have h2 := key (xs ++ ys) ∅ 0
    simp only [load_existing_dataset_jsonl, h1, h2]
    simp [lineName, lineParsed]

/-- **C1, counterexample.** A run in which a fatal extraction error
reaches the draining loop: the loop ends with the raised error, yet
`runMain` lets nothing escape (`raised = none`) — the `except` handler of
the drain loop has no `raise`, so the failure is swallowed and the
process exits normally, contradicting "re-raising the failure out of the
driver so that the process terminates with a non-zero exit status". -/
theorem C1_counterexample :
    (drainLoop Fmt.jsonl 5
        [ExtractResult.success [("name", "X")],
         ExtractResult.fatal "429 quota exceeded"]
        (initState false 0 [])).2 = Option.some "429 quota exceeded" ∧
    (runMain Fmt.jsonl 5
        [ExtractResult.success [("name", "X")],
         ExtractResult.fatal "429 quota exceeded"]
        (initState false 0 [])).raised = Option.none := ⟨rfl, rfl⟩

/-- **C1, amended.** When a fatal extraction error reaches the draining
loop, the run cancels outstanding tasks, writes the standalone error
report, logs the abort, and flushes every record accumulated before the
abort — but the except-handler of the drain loop swallows the error:
nothing is re-raised out of the driver, which returns normally
(exit status zero). -/
theorem C1_fatal_abort (fmt : Fmt) (K : Nat) (results : List ExtractResult)
    (st0 : DrainState) (msg : String)
    (h : (drainLoop fmt K results st0).2 = Option.some msg) :
    (runMain fmt K results st0).state.cancelled = true ∧
    (runMain fmt K results st0).state.errorReport = Option.some msg ∧
    logLine "Stopping early due to error." (Option.some msg)
      ∈ (runMain fmt K results st0).state.logs ∧
    (runMain fmt K results st0).state.rows = [] ∧
    (runMain fmt K results st0).state.totalWritten
      = (drainLoop fmt K results st0).1.totalWritten
        + (drainLoop fmt K results st0).1.rows.length ∧
    (runMain fmt K results st0).raised = Option.none := by
  unfold runMain
  simp only [h]
  by_cases hempty : (drainLoop fmt K results st0).1.rows.isEmpty
  · have hnil : (drainLoop fmt K results st0).1.rows = [] := by
      simpa [List.isEmpty_iff] using hempty
    simp only [hempty, if_true]
    split <;> simp [hnil]
  · simp only [hempty, Bool.false_eq_true, if_false]
    simp

/-- **C1, witness.** A concrete aborted run: one success, then a fatal
billing error; the run is cancelled, reported and logged, the success is
flushed, and nothing is re-raised. -/
theorem C1_witness :
    (drainLoop Fmt.csv 5
        [ExtractResult.success [("name", "Y")], ExtractResult.fatal "billing issue"]
        (initState false 0 [])).2 = Option.some "billing issue" ∧
    ((runMain Fmt.csv 5
        [ExtractResult.success [("name", "Y")], ExtractResult.fatal "billing issue"]
        (initState false 0 [])).state.cancelled = true ∧
     (runMain Fmt.csv 5
        [ExtractResult.success [("name", "Y")], ExtractResult.fatal "billing issue"]
        (initState false 0 [])).state.errorReport = Option.some "billing issue" ∧
     logLine "Stopping early due to error." (Option.some "billing issue")
       ∈ (runMain Fmt.csv 5
            [ExtractResult.success [("name", "Y")], ExtractResult.fatal "billing issue"]
            (initState false 0 [])).state.logs ∧
     (runMain Fmt.csv 5
        [ExtractResult.success [("name", "Y")], ExtractResult.fatal "billing issue"]
        (initState false 0 [])).state.rows = [] ∧
     (runMain Fmt.csv 5
        [ExtractResult.success [("name", "Y")], ExtractResult.fatal "billing issue"]
        (initState false 0 [])).state.totalWritten
       = (drainLoop Fmt.csv 5
            [ExtractResult.success [("name", "Y")], ExtractResult.fatal "billing issue"]
            (initState false 0 [])).1.totalWritten
         + (drainLoop Fmt.csv 5
              [ExtractResult.success [("name", "Y")], ExtractResult.fatal "billing issue"]
              (initState false 0 [])).1.rows.length ∧
     (runMain Fmt.csv 5
        [ExtractResult.success [("name", "Y")], ExtractResult.fatal "billing issue"]
        (initState false 0 [])).raised = Option.none) :=
  ⟨rfl,
   C1_fatal_abort Fmt.csv 5
     [ExtractResult.success [("name", "Y")], ExtractResult.fatal "billing issue"]
     (initState false 0 []) "billing issue" rfl⟩

/-! ### The flush-threshold invariant (C5) -/

/-- The header flag after a run segment performing `f` writer
invocations: a csv flush sets it; jsonl flushes pass it through. -/
def hwAfter (fmt : Fmt) (hw : Bool) (f : Nat) : Bool :=
  match fmt with
  | Fmt.csv => hw || decide (0 < f)
  | Fmt.jsonl => hw

/-- How many header lines a run segment performing `f` writer invocations
emits, entering with header flag `hw`. -/
def emitsAfter (fmt : Fmt) (hw : Bool) (f : Nat) : Nat :=
  match fmt with
  | Fmt.csv => if hw = false ∧ 0 < f then 1 else 0
  | Fmt.jsonl => 0

@[simp] lemma hwAfter_zero (fmt : Fmt) (hw : Bool) : hwAfter fmt hw 0 = hw := by
  cases fmt <;> simp [hwAfter]

@[simp] lemma emitsAfter_zero (fmt : Fmt) (hw : Bool) : emitsAfter fmt hw 0 = 0 := by
  cases fmt <;> simp [emitsAfter]

/-- Invariant of the draining loop: entering with a batch smaller than
the threshold `K` and draining fatal-free completions with `m` truthy
successes, the loop performs `(r + m) / K` writer invocations of exactly
`K` rows each, leaves `(r + m) % K` rows in the batch, and updates the
header flag and header-emission count accordingly. -/
lemma drain_loop_invariant (fmt : Fmt) (K : Nat) :
    ∀ (results : List ExtractResult) (st : DrainState),
      hasFatal results = false → st.rows.length < K →
      (drainLoop fmt K results st).2 = Option.none ∧
      (drainLoop fmt K results st).1.flushSizes
        = st.flushSizes
          ++ List.replicate ((st.rows.length + successCount results) / K) K ∧
      (drainLoop fmt K results st).1.rows.length
        = (st.rows.length + successCount results) % K ∧
      (drainLoop fmt K results st).1.headerWritten
        = hwAfter fmt st.headerWritten
            ((st.rows.length + successCount results) / K) ∧
      (drainLoop fmt K results st).1.headerEmits
        = st.headerEmits
          + emitsAfter fmt st.headerWritten
              ((st.rows.length + successCount results) / K) := by
  intro results
  induction results with
  | nil =>
      intro st _ hr
      refine ⟨rfl, ?_, ?_, ?_, ?_⟩ <;>
        simp [drainLoop, successCount, Nat.div_eq_of_lt hr, Nat.mod_eq_of_lt hr]
  | cons r rest ih =>
      intro st hf hr
      cases r with
      | fatal msg => simp [hasFatal] at hf
      | nonFatal =>
          have hf' : hasFatal rest = false := by
            simpa [hasFatal] using hf
          have hstep : drainStep fmt K st Option.none
              = { st with logs := st.logs ++
                    [logLine "Received empty row from processing step." Option.none] } := by
            simp only [drainStep]
            rw [if_neg (by simpa using Nat.not_le.mpr hr)]
          have hcnt : successCount (ExtractResult.nonFatal :: rest)
              = successCount rest := by
            simp [successCount, List.countP_cons, truthySucc]
          rw [show drainLoop fmt K (ExtractResult.nonFatal :: rest) st
                = drainLoop fmt K rest (drainStep fmt K st Option.none) from rfl,
              hstep, hcnt]
          exact ih _ hf' (by simpa using hr)
      | success row =>
          have hf' : hasFatal rest = false := by
            simpa [hasFatal] using hf
          by_cases hrow : row.isEmpty
          · have hstep : drainStep fmt K st (Option.some row)
                = { st with logs := st.logs ++
                      [logLine "Received empty row from processing step." Option.none] } := by
              simp only [drainStep, hrow, Bool.not_true, Bool.false_eq_true, if_false]
              rw [if_neg (by simpa using Nat.not_le.mpr hr)]
            have hcnt : successCount (ExtractResult.success row :: rest)
                = successCount rest := by
              simp [successCount, List.countP_cons, truthySucc, hrow]
            rw [show drainLoop fmt K (ExtractResult.success row :: rest) st
                  = drainLoop fmt K rest (drainStep fmt K st (Option.some row)) from rfl,
                hstep, hcnt]
            exact ih _ hf' (by simpa using hr)
          · have hcnt : successCount (ExtractResult.success row :: rest)
                = successCount rest + 1 := by
              simp [successCount, List.countP_cons, truthySucc, hrow]
            have happ : ({ st with rows := st.rows ++ [row] } : DrainState).rows.length
                = st.rows.length + 1 := by simp
            by_cases hfl : K ≤ st.rows.length + 1
            · -- the appended row fills the batch exactly: r + 1 = K
              have hKeq : st.rows.length + 1 = K := by omega
              have hstep : drainStep fmt K st (Option.some row)
                  = flushStep fmt { st with rows := st.rows ++ [row] } := by
                simp only [drainStep, hrow, Bool.not_false, if_true]
                rw [if_pos (by simpa using hfl)]
              rw [show drainLoop fmt K (ExtractResult.success row :: rest) st
                    = drainLoop fmt K rest (drainStep fmt K st (Option.some row)) from rfl,
                  hstep, hcnt]
              have h0 : (flushStep fmt { st with rows := st.rows ++ [row] }).rows.length < K := by
                simp; omega
              obtain ⟨g1, g2, g3, g4, g5⟩ := ih _ hf' h0
              have hdiv : (st.rows.length + (successCount rest + 1)) / K
                  = successCount rest / K + 1 := by
                rw [show st.rows.length + (successCount rest + 1)
                      = successCount rest + K by omega]
                exact Nat.add_div_right _ (by omega)
              have hmod : (st.rows.length + (successCount rest + 1)) % K
                  = successCount rest % K := by
                rw [show st.rows.length + (successCount rest + 1)
                      = successCount rest + K by omega]
                exact Nat.add_mod_right _ _
              refine ⟨g1, ?_, ?_, ?_, ?_⟩
              · rw [g2, hdiv]
                simp [hKeq, List.replicate_succ]
              · rw [g3, hmod]
                simp
              · rw [g4, hdiv]
                cases fmt
                · simp [hwAfter, flushStep_headerWritten]
                · simp [hwAfter, flushStep_headerWritten]
              · rw [g5, hdiv]
                cases fmt
                · simp only [flushStep_headerEmits, flushStep_headerWritten]
                  simp only [hwAfter, emitsAfter]
                  by_cases hhw : st.headerWritten = false <;> simp [hhw]
                · simp [flushStep_headerEmits, flushStep_headerWritten,
                    hwAfter, emitsAfter]
            · -- batch still below threshold after the append
              have hstep : drainStep fmt K st (Option.some row)
                  = { st with rows := st.rows ++ [row] } := by
                simp only [drainStep, hrow, Bool.not_false, if_true]
                rw [if_neg (by simpa using hfl)]
              rw [show drainLoop fmt K (ExtractResult.success row :: rest) st
                    = drainLoop fmt K rest (drainStep fmt K st (Option.some row)) from rfl,
                  hstep, hcnt]
              have h1 : ({ st with rows := st.rows ++ [row] } : DrainState).rows.length < K := by
                simp; omega
              obtain ⟨g1, g2, g3, g4, g5⟩ := ih _ hf' h1
              have heq : st.rows.length + 1 + successCount rest
                  = st.rows.length + (successCount rest + 1) := by omega
              refine ⟨g1, ?_, ?_, ?_, ?_⟩
              · rw [g2]; simp [heq]
              · rw [g3]; simp [heq]
              · rw [g4]; simp [heq]
              · rw [g5]; simp [heq]

/-- Ceiling division: `M/K` full batches plus one remainder batch when
the remainder is non-zero. -/
lemma ceil_div_identity (K M : Nat) (hK : 1 ≤ K) (hM : 0 < M) :
    M / K + (if M % K = 0 then 0 else 1) = (M + K - 1) / K := by
  have hK0 : 0 < K := hK
  have hdm := Nat.div_add_mod M K
  by_cases h : M % K = 0
  · have harr : M + K - 1 = K * (M / K) + (K - 1) := by omega
    rw [harr, Nat.mul_add_div hK0]
    have hz : (K - 1) / K = 0 := Nat.div_eq_of_lt (by omega)
    simp [h, hz]
  · have hlt : M % K < K := Nat.mod_lt M hK0
    have harr : M + K - 1 = K * (M / K + 1) + (M % K - 1) := by
      rw [Nat.mul_add, Nat.mul_one]
      omega
    rw [harr, Nat.mul_add_div hK0]
    have hz : (M % K - 1) / K = 0 := Nat.div_eq_of_lt (by omega)
    simp [h, hz]

/-- **C5.** With flush threshold `K ≥ 1` and `M > K` truthy successes and
no fatal error, the run invokes the writer exactly `⌈M/K⌉ = (M+K-1)/K`
times: `M/K` in-loop flushes of exactly `K` rows each, plus one final
flush of the non-empty remainder `M % K` when it is non-zero; in table
format the header flag ends true and exactly one header is emitted on a
fresh run (`hw0 = false`), none on a primed one — once true it stays
true across all later flushes. -/
theorem C5_flush_threshold (fmt : Fmt) (K M : Nat) (results : List ExtractResult)
    (hw0 : Bool) (tw0 : Nat) (c0 : List String)
    (hK : 1 ≤ K) (hM : K < M)
    (hf : hasFatal results = false) (hsc : successCount results = M) :
    (runMain fmt K results (initState hw0 tw0 c0)).state.flushSizes
      = List.replicate (M / K) K ++ (if M % K = 0 then [] else [M % K]) ∧
    ((runMain fmt K results (initState hw0 tw0 c0)).state.flushSizes).length
      = (M + K - 1) / K ∧
    (fmt = Fmt.csv →
      (runMain fmt K results (initState hw0 tw0 c0)).state.headerWritten = true ∧
      (runMain fmt K results (initState hw0 tw0 c0)).state.headerEmits
        = (if hw0 then 0 else 1)) := by
  have hr0 : (initState hw0 tw0 c0).rows.length < K := by
    simp [initState]; omega
  obtain ⟨g1, g2, g3, g4, g5⟩ := drain_loop_invariant fmt K results
    (initState hw0 tw0 c0) hf hr0
  have hdivpos : 0 < M / K := Nat.div_pos (by omega) (by omega)
  simp only [initState, List.length_nil, Nat.zero_add, hsc] at g2 g3 g4 g5
  unfold runMain
  simp only [g1]
  have hfs : (drainLoop fmt K results (initState hw0 tw0 c0)).1.flushSizes
      = List.replicate (M / K) K := by simpa [initState] using g2
  have hrl : (drainLoop fmt K results (initState hw0 tw0 c0)).1.rows.length
      = M % K := g3
  have hhw : (drainLoop fmt K results (initState hw0 tw0 c0)).1.headerWritten
      = hwAfter fmt hw0 (M / K) := g4
  have hhe : (drainLoop fmt K results (initState hw0 tw0 c0)).1.headerEmits
      = emitsAfter fmt hw0 (M / K) := by simpa [initState] using g5
  by_cases hrem : M % K = 0
  · have hempty : (drainLoop fmt K results (initState hw0 tw0 c0)).1.rows.isEmpty = true := by
      rw [List.isEmpty_iff_length_eq_zero, hrl]
      exact hrem
    simp only [hempty, if_true]
    have hceil := ceil_div_identity K M hK (by omega)
    simp [hrem] at hceil
    refine ⟨?_, ?_, ?_⟩
    · split <;> simp [hfs, hrem]
    · split <;> simp [hfs, hrem, hceil]
    · intro hcsv
      subst hcsv
      constructor
      · split <;> simp [hhw, hwAfter, hdivpos]
      · split <;>
          simp [hhe, emitsAfter, hdivpos, Nat.pos_iff_ne_zero] <;>
          by_cases hhw0 : hw0 <;> simp [hhw0]
  · have hnonempty : ¬ (drainLoop fmt K results (initState hw0 tw0 c0)).1.rows.isEmpty = true := by
      rw [List.isEmpty_iff_length_eq_zero, hrl]
      exact hrem
    simp only [hnonempty, Bool.false_eq_true, if_false]
    have hceil := ceil_div_identity K M hK (by omega)
    rw [if_neg hrem] at hceil
    refine ⟨?_, ?_, ?_⟩
    · simp [hfs, hrl, hrem]
    · simp [hfs, hrl, hrem]
      omega
    · intro hcsv
      subst hcsv
      constructor
      · simp [flushStep_headerWritten]
      · simp only [flushStep_headerEmits, flushStep_headerWritten, hhe, hhw]
        simp [hwAfter, emitsAfter, hdivpos]
        by_cases hhw0 : hw0 <;> simp [hhw0]

/-- **C5, witness.** A csv run with threshold 2 and five successes:
three writer invocations `[2, 2, 1]`, which is `⌈5/2⌉ = 3`, header flag
true at the end, one header line emitted. -/
theorem C5_witness :
    1 ≤ 2 ∧ 2 < 5 ∧
    hasFatal
      [ExtractResult.success [("name", "a")], ExtractResult.success [("name", "b")],
       ExtractResult.success [("name", "c")], ExtractResult.success [("name", "d")],
       ExtractResult.success [("name", "e")]] = false ∧
    successCount
      [ExtractResult.success [("name", "a")], ExtractResult.success [("name", "b")],
       ExtractResult.success [("name", "c")], ExtractResult.success [("name", "d")],
       ExtractResult.success [("name", "e")]] = 5 ∧
    ((runMain Fmt.csv 2
        [ExtractResult.success [("name", "a")], ExtractResult.success [("name", "b")],
         ExtractResult.success [("name", "c")], ExtractResult.success [("name", "d")],
         ExtractResult.success [("name", "e")]]
        (initState false 0 [])).state.flushSizes
      = List.replicate (5 / 2) 2 ++ (if 5 % 2 = 0 then [] else [5 % 2]) ∧
    ((runMain Fmt.csv 2
        [ExtractResult.success [("name", "a")], ExtractResult.success [("name", "b")],
         ExtractResult.success [("name", "c")], ExtractResult.success [("name", "d")],
         ExtractResult.success [("name", "e")]]
        (initState false 0 [])).state.flushSizes).length = (5 + 2 - 1) / 2 ∧
    (Fmt.csv = Fmt.csv →
      (runMain Fmt.csv 2
        [ExtractResult.success [("name", "a")], ExtractResult.success [("name", "b")],
         ExtractResult.success [("name", "c")], ExtractResult.success [("name", "d")],
         ExtractResult.success [("name", "e")]]
        (initState false 0 [])).state.headerWritten = true ∧
      (runMain Fmt.csv 2
        [ExtractResult.success [("name", "a")], ExtractResult.success [("name", "b")],
         ExtractResult.success [("name", "c")], ExtractResult.success [("name", "d")],
         ExtractResult.success [("name", "e")]]
        (initState false 0 [])).state.headerEmits = (if false then 0 else 1))) :=
  ⟨by decide, by decide, rfl, rfl,
   C5_flush_threshold Fmt.csv 2 5
     [ExtractResult.success [("name", "a")], ExtractResult.success [("name", "b")],
      ExtractResult.success [("name", "c")], ExtractResult.success [("name", "d")],
      ExtractResult.success [("name", "e")]]
     false 0 [] (by decide) (by decide) rfl rfl⟩

end PatientJournals
